import Mathlib

/-!
Shallow embedding of the simulation core of `the_snake.py` (the richer
variant: walls plus three timed bonuses).  Positions are integer pixel
pairs, speed is a rational, time is a rational number of seconds since
process start.  Randomness (`random.choice`, `random.random`,
`random.shuffle`) is modelled by explicit pick parameters: `choice` over a
collection becomes indexing by `pick % size` (returning `none` exactly when
the collection is empty, which in Python raises `IndexError`), `random()`
draws become rational parameters, and `shuffle` becomes selection of one of
the list's permutations.  Score saving (`save_score`) is modelled as an
emitted event list.
-/

namespace TheSnake

set_option maxRecDepth 20000

abbrev Pos := ℤ × ℤ

def GRID_SIZE : ℤ := 20

def AREA_SIZE : ℤ × ℤ := (660, 500)

def UP : ℤ × ℤ := (0, -1)

def DOWN : ℤ × ℤ := (0, 1)

def LEFT : ℤ × ℤ := (-1, 0)

def RIGHT : ℤ × ℤ := (1, 0)

/-- `WALL_POSITIONS`: a vertical wall at `x = 660 // 2 - 20 // 2 = 320` for
`y in range(0, 500, 20)` and a horizontal wall at `y = 500 // 2 - 10 = 240`
for `x in range(0, 660, 20)` (a Python set; embedded as a list, membership
is what matters). -/
def WALL_POSITIONS : List Pos :=
  (List.range 25).map (fun j => ((320 : ℤ), ((20 * j : ℕ) : ℤ))) ++
    (List.range 33).map (fun i => (((20 * i : ℕ) : ℤ), (240 : ℤ)))

/-- `GRID_POSITIONS`: `{(x, y) for x in range(0, 660, 20) for y in range(0, 500, 20)}`. -/
def GRID_POSITIONS : List Pos :=
  (List.range 33).flatMap (fun i =>
    (List.range 25).map (fun j => (((20 * i : ℕ) : ℤ), ((20 * j : ℕ) : ℤ))))

/-- `DRAW_POSITIONS = GRID_POSITIONS - WALL_POSITIONS`. -/
def DRAW_POSITIONS : List Pos :=
  GRID_POSITIONS.filter (fun p => decide (p ∉ WALL_POSITIONS))

/-- `random.choice` over a sequence: returns an element for a nonempty
sequence (the pick parameter ranges over all indices), and fails
(`IndexError`) on an empty one, modelled as `none`. -/
def choiceList {α : Type} (l : List α) (pick : ℕ) : Option α :=
  l.get? (pick % l.length)

/-- `Fruit.randomize_position`: `choice(tuple(GRID_POSITIONS - set(occupied)))`. -/
def randomize_position (occupied : List Pos) (pick : ℕ) : Option Pos :=
  choiceList (GRID_POSITIONS.filter (fun p => decide (p ∉ occupied))) pick

/-- `choice(tuple(DRAW_POSITIONS))` used by `Snake.reset`. -/
def chooseDraw (pick : ℕ) : Pos :=
  DRAW_POSITIONS.getD (pick % DRAW_POSITIONS.length) (0, 0)

/-- `choice((RIGHT, LEFT, UP, DOWN))` used by `Snake.reset`. -/
def chooseDir (pick : ℕ) : ℤ × ℤ :=
  [RIGHT, LEFT, UP, DOWN].getD (pick % 4) (0, 0)

structure Snake where
  direction : ℤ × ℤ
  positions : List Pos
  length : ℕ
  speed : ℚ
  deriving DecidableEq

/-- `Snake.get_head_position`: `self.positions[0]`.  `positions` is never
empty in any reachable state; the default is unreachable. -/
def Snake.get_head_position (s : Snake) : Pos :=
  s.positions.headD (0, 0)

/-- `Snake.reset`, with the two `random.choice` draws as pick parameters. -/
def Snake.reset (pd pp : ℕ) : Snake :=
  { direction := chooseDir pd
    positions := [chooseDraw pp]
    length := 1
    speed := 1/10 }

/-- `Snake.move`: prepend the wrapped head, pop the tail when the list
exceeds `length`.  Python `%` on a positive modulus agrees with `Int.emod`. -/
def Snake.move (s : Snake) : Snake :=
  let h := s.get_head_position
  let ps : List Pos :=
    ((h.1 + s.direction.1 * GRID_SIZE).emod AREA_SIZE.1,
     (h.2 + s.direction.2 * GRID_SIZE).emod AREA_SIZE.2) :: s.positions
  { s with positions := if s.length < ps.length then ps.dropLast else ps }

def FRUIT_APPLE : String := "apple"

def FRUIT_CHERRY : String := "cherry"

def FRUIT_PLUM : String := "pulm"

def FRUIT_ORANGE : String := "orange"

/-- A bonus fruit.  `active_bonus` stores the bonus itself or `None` in the
source and is only ever tested for truthiness, so a `Bool` is faithful.
The shared class attribute `Bonus.spawn_time` lives in `GameState`. -/
structure Bonus where
  fruit_name : String
  position : Pos
  active_bonus : Bool
  deriving DecidableEq

structure GameState where
  snake : Snake
  /-- `self.apple.position`. -/
  applePos : Pos
  bonuses : List Bonus
  score : ℤ
  /-- The class attribute `Bonus.spawn_time`, shared by all bonus instances,
  as seconds since process start. -/
  bonusSpawnTime : ℚ
  deriving DecidableEq

/-- `timedelta.seconds` of `datetime.now() - t0`: the whole-seconds
component, i.e. the floor of the delta reduced modulo one day. -/
def pySeconds (t : ℚ) : ℤ :=
  (Int.floor t).emod 86400

/-- One iteration of the bonus loop of `GameState.handle_collision`
(lines 377-403): accumulator carries the snake, the score and the bonuses
already processed. -/
def bonusStep (now spawnTime : ℚ) (acc : Snake × ℤ × List Bonus) (b : Bonus) :
    Snake × ℤ × List Bonus :=
  let s := acc.1
  let score := acc.2.1
  let done := acc.2.2
  if b.active_bonus ∧ b.position = s.get_head_position then
    if b.fruit_name = FRUIT_ORANGE then
      let newLen := max 5 (s.length - 1)
      ({ s with length := newLen, positions := s.positions.take newLen },
        score + 30, done ++ [{ b with active_bonus := false }])
    else if b.fruit_name = FRUIT_PLUM then
      ({ s with speed := max 1 (s.speed - 1/2) },
        score + 30, done ++ [{ b with active_bonus := false }])
    else if b.fruit_name = FRUIT_CHERRY then
      ({ s with length := s.length + 1, speed := s.speed + 5/100 },
        score + (150 - 10 * pySeconds (now - spawnTime)),
        done ++ [{ b with active_bonus := false }])
    else
      (s, score, done ++ [{ b with active_bonus := false }])
  else
    (s, score, done ++ [b])

/-- `GameState.handle_collision`.  `now` is the current wall clock;
`applePick` feeds the apple relocation, `pd1 pp1` / `pd2 pp2` feed the
`Snake.reset` calls of the self- and wall-collision branches.  Returns the
new state together with the list of emitted `save_score` events (each
carrying the score passed to `save_score`), or `none` when
`randomize_position` fails. -/
def handle_collision (g : GameState) (now : ℚ)
    (applePick pd1 pp1 pd2 pp2 : ℕ) : Option (GameState × List ℤ) :=
  let s0 := g.snake
  let step1 : Option (Snake × Pos × ℤ) :=
    if s0.get_head_position = g.applePos then
      let s1 := { s0 with length := s0.length + 1, speed := s0.speed + 5/100 }
      match randomize_position (s1.positions ++ WALL_POSITIONS) applePick with
      | none => none
      | some p => some (s1, p, g.score + 10)
    else some (s0, g.applePos, g.score)
  match step1 with
  | none => none
  | some (s1, apple1, score1) =>
    let r2 : Snake × ℤ × List ℤ :=
      if s1.get_head_position ∈ s1.positions.tail then
        (Snake.reset pd1 pp1, 0, [score1])
      else (s1, score1, [])
    let r3 : Snake × ℤ × List ℤ :=
      if r2.1.get_head_position ∈ WALL_POSITIONS then
        (Snake.reset pd2 pp2, 0, r2.2.2 ++ [r2.2.1])
      else r2
    let r4 := g.bonuses.foldl (bonusStep now g.bonusSpawnTime) (r3.1, r3.2.1, [])
    some ({ g with snake := r4.1, applePos := apple1, score := r4.2.1, bonuses := r4.2.2 }, r3.2.2)

/-- The `conditions` dict of `GameState.bonus_spawn`, at one loop iteration;
`r` packs the fresh `random()` draws of that iteration.  Every bonus carries
one of the three known names, so the fall-through (a `KeyError` in Python)
is unreachable. -/
def condBool (g : GameState) (b : Bonus) (r : ℚ × ℚ × ℚ) : Bool :=
  if b.fruit_name = FRUIT_ORANGE then
    decide (5 < g.snake.length) && decide (r.1 ≤ 1/100)
  else if b.fruit_name = FRUIT_PLUM then
    decide (1 < g.snake.speed) && decide (r.2.1 ≤ 1/100)
  else if b.fruit_name = FRUIT_CHERRY then
    decide (r.2.2 < 5/100)
  else false

/-- `random.shuffle`: selection of one of the permutations of the list. -/
def pyShuffle {α : Type} (l : List α) (pick : ℕ) : List α :=
  l.permutations.getD (pick % l.permutations.length) l

/-- The activation loop of `GameState.bonus_spawn` (lines 335-351): walk the
shuffled list, activate the first bonus whose condition holds and whose flag
is clear, then `break`.  Returns the updated list and whether an activation
happened; `none` models a failing `randomize_position` inside
`Bonus.activate`. -/
def activateFirst (brand : ℕ → ℚ × ℚ × ℚ) (g : GameState) (occupied : List Pos)
    (posPick : ℕ) : List Bonus → ℕ → Option (List Bonus × Bool)
  | [], _ => some ([], false)
  | b :: rest, i =>
    if condBool g b (brand i) && !b.active_bonus then
      match randomize_position occupied posPick with
      | none => none
      | some p => some ({ b with position := p, active_bonus := true } :: rest, true)
    else
      match activateFirst brand g occupied posPick rest (i + 1) with
      | none => none
      | some (l, a) => some (b :: l, a)

/-- `GameState.bonus_spawn`.  `Bonus.activate` sets the shared
`Bonus.spawn_time` to the current time; the Boolean reports whether an
`Idle→Active` transition happened this call. -/
def bonus_spawn (g : GameState) (now : ℚ) (shufflePick posPick : ℕ)
    (brand : ℕ → ℚ × ℚ × ℚ) : Option (GameState × Bool) :=
  if now - g.bonusSpawnTime < 15 then some (g, false)
  else
    let shuffled := pyShuffle g.bonuses shufflePick
    match activateFirst brand g (g.snake.positions ++ WALL_POSITIONS) posPick
        shuffled 0 with
    | none => none
    | some (l, a) =>
      some ({ g with bonuses := l, bonusSpawnTime := if a then now else g.bonusSpawnTime }, a)

/-- The rendering gate for one bonus in `GameState.draw_all` (lines
414-417): drawn iff active and `now < Bonus.spawn_time + 10`. -/
def bonusDrawn (g : GameState) (now : ℚ) (b : Bonus) : Bool :=
  b.active_bonus && decide (now < g.bonusSpawnTime + 10)

inductive Key
  | up
  | down
  | left
  | right
  deriving DecidableEq

/-- The `TURN_MAP` dict: `(key, current direction) → new direction`, absent
pairs (including 180 degree reversals) leave the direction unchanged. -/
def TURN_MAP : Key → ℤ × ℤ → Option (ℤ × ℤ)
  | Key.up, d => if d = LEFT ∨ d = RIGHT then some UP else none
  | Key.down, d => if d = RIGHT ∨ d = LEFT then some DOWN else none
  | Key.left, d => if d = UP ∨ d = DOWN then some LEFT else none
  | Key.right, d => if d = UP ∨ d = DOWN then some RIGHT else none

/-- The direction updates of `handle_keys` over one tick's key events. -/
def handle_keys (s : Snake) (ks : List Key) : Snake :=
  ks.foldl (fun s k =>
    match TURN_MAP k s.direction with
    | some d => { s with direction := d }
    | none => s) s

/-- All inputs (clock reading, key events, random draws) consumed by one
iteration of the main loop. -/
structure TickIn where
  keys : List Key
  now : ℚ
  shufflePick : ℕ
  bonusPosPick : ℕ
  brand : ℕ → ℚ × ℚ × ℚ
  applePick : ℕ
  pd1 : ℕ
  pp1 : ℕ
  pd2 : ℕ
  pp2 : ℕ

/-- One iteration of the main loop (`main`, lines 674-694): key handling,
`bonus_spawn`, `Snake.move`, `handle_collision`.  Returns the new state, the
emitted score-save events, and whether a bonus activated this tick. -/
def tick (g : GameState) (t : TickIn) : Option (GameState × List ℤ × Bool) :=
  let g0 := { g with snake := handle_keys g.snake t.keys }
  match bonus_spawn g0 t.now t.shufflePick t.bonusPosPick t.brand with
  | none => none
  | some (g1, a) =>
    let g2 := { g1 with snake := g1.snake.move }
    match handle_collision g2 t.now t.applePick t.pd1 t.pp1 t.pd2 t.pp2 with
    | none => none
    | some (g3, ev) => some (g3, ev, a)

/-- Run a list of ticks, collecting the times of the ticks at which a bonus
activated (the `Idle→Active` transitions). -/
def run (g : GameState) : List TickIn → Option (GameState × List ℚ)
  | [] => some (g, [])
  | t :: ts =>
    match tick g t with
    | none => none
    | some (g', _, a) =>
      match run g' ts with
      | none => none
      | some (g'', acts) => some (g'', (if a then [t.now] else []) ++ acts)

/-- Number of bonuses whose active flag is set. -/
def activeCount (g : GameState) : ℕ :=
  g.bonuses.countP (fun b => b.active_bonus)

/-- `spaced st l`: starting from a clock reading `st`, the times in `l` are
each at least 15 seconds after the previous one. -/
def spaced : ℚ → List ℚ → Prop
  | _, [] => True
  | st, a :: l => st + 15 ≤ a ∧ spaced a l

/-- Spec section 8 invariant for the actor: the body never exceeds the
length target and stays inside the pixel bounds. -/
def SnakeInv (s : Snake) : Prop :=
  s.positions.length ≤ s.length ∧
    ∀ p ∈ s.positions, 0 ≤ p.1 ∧ p.1 < 660 ∧ 0 ≤ p.2 ∧ p.2 < 500

instance (s : Snake) : Decidable (SnakeInv s) := by
  unfold SnakeInv
  infer_instance

/-! ### Concrete states used to test the claims

Each is a reachable configuration of the game; the accompanying theorems
evaluate the transition functions on them. -/

/-- An active cherry at `(0, 0)`. -/
def cherry00 : Bonus where
  fruit_name := FRUIT_CHERRY
  position := (0, 0)
  active_bonus := true

/-- An active plum at `(0, 0)`. -/
def plum00 : Bonus where
  fruit_name := FRUIT_PLUM
  position := (0, 0)
  active_bonus := true

/-- An active orange at `(0, 0)`. -/
def orange00 : Bonus where
  fruit_name := FRUIT_ORANGE
  position := (0, 0)
  active_bonus := true

/-- A length-1 snake at `(0, 0)` with an active cherry at the head; the
shared spawn clock reads 0. -/
def stateC1 : GameState where
  snake := { direction := RIGHT, positions := [((0 : ℤ), (0 : ℤ))], length := 1, speed := 1/10 }
  applePos := (100, 100)
  bonuses := [cherry00]
  score := 0
  bonusSpawnTime := 0

/-- Same configuration, used for the expiry claim. -/
def stateC2 : GameState where
  snake := { direction := RIGHT, positions := [((0 : ℤ), (0 : ℤ))], length := 1, speed := 1/10 }
  applePos := (100, 100)
  bonuses := [cherry00]
  score := 0
  bonusSpawnTime := 0

/-- An idle orange at `(200, 200)`. -/
def orange200 : Bonus where
  fruit_name := FRUIT_ORANGE
  position := (200, 200)
  active_bonus := false

/-- An idle plum at `(220, 200)`. -/
def plum220 : Bonus where
  fruit_name := FRUIT_PLUM
  position := (220, 200)
  active_bonus := false

/-- An active cherry at `(100, 200)`. -/
def cherry100 : Bonus where
  fruit_name := FRUIT_CHERRY
  position := (100, 200)
  active_bonus := true

/-- A length-7 snake (five apples eaten) with the cherry still active from
an activation at time 0 and the orange and plum idle. -/
def stateC3 : GameState where
  snake := { direction := RIGHT, positions := [((0 : ℤ), (0 : ℤ))], length := 7, speed := 1/10 }
  applePos := (100, 100)
  bonuses := [orange200, plum220, cherry100]
  score := 0
  bonusSpawnTime := 0

/-- The state after `bonus_spawn` activates the orange at time 16 while the
cherry is still active: two active bonuses. -/
def stateC3x : GameState where
  snake := { direction := RIGHT, positions := [((0 : ℤ), (0 : ℤ))], length := 7, speed := 1/10 }
  applePos := (100, 100)
  bonuses := [{ orange200 with position := (0, 20), active_bonus := true }, plum220, cherry100]
  score := 0
  bonusSpawnTime := 16

/-- The head has just moved onto the wall cell `(320, 0)` while a plum is
active at `(0, 0)`, which is exactly the cell `chooseDraw 0` the reset will
land on. -/
def stateC5 : GameState where
  snake := { direction := RIGHT, positions := [((320 : ℤ), (0 : ℤ))], length := 1, speed := 1/10 }
  applePos := (100, 100)
  bonuses := [plum00]
  score := 0
  bonusSpawnTime := 0

/-- A quiet state for exercising one tick. -/
def stateC6 : GameState where
  snake := { direction := RIGHT, positions := [((0 : ℤ), (20 : ℤ))], length := 1, speed := 1/10 }
  applePos := (100, 100)
  bonuses := []
  score := 0
  bonusSpawnTime := 0

/-- A tick input whose clock reading 0 is within the 15-second cooldown. -/
def tickC6 : TickIn where
  keys := []
  now := 0
  shufflePick := 0
  bonusPosPick := 0
  brand := fun _ => (1, 1, 1)
  applePick := 0
  pd1 := 0
  pp1 := 0
  pd2 := 0
  pp2 := 0

/-- The head `(40, 0)` has just re-entered the body (`positions[2]`), with
score 77 and an active orange sitting at `(0, 0) = chooseDraw 0`, the cell
the terminal reset will land on. -/
def stateC7 : GameState where
  snake := { direction := LEFT, positions := [((40 : ℤ), (0 : ℤ)), (20, 0), (40, 0)], length := 5, speed := 1/10 }
  applePos := (100, 100)
  bonuses := [orange00]
  score := 77
  bonusSpawnTime := 0

/-- A quiet state for the invariant witness. -/
def stateC8 : GameState where
  snake := { direction := RIGHT, positions := [((0 : ℤ), (20 : ℤ))], length := 1, speed := 1/10 }
  applePos := (100, 100)
  bonuses := []
  score := 0
  bonusSpawnTime := 0

/-- The head `(0, 0)` lands on the apple and simultaneously on
`positions[2]`: a double-back after growth with the apple sitting on the
doubly-occupied cell. -/
def stateC9 : GameState where
  snake := { direction := LEFT, positions := [((0 : ℤ), (0 : ℤ)), (20, 0), (0, 0)], length := 5, speed := 1/10 }
  applePos := (0, 0)
  bonuses := []
  score := 0
  bonusSpawnTime := 0

/-- A cherry sitting at the head of a fresh snake, consumed 3 seconds after
its spawn (the spec scenario with `score += 120`). -/
def stateC1w : GameState where
  snake := { direction := RIGHT, positions := [((0 : ℤ), (0 : ℤ))], length := 1, speed := 1/10 }
  applePos := (100, 100)
  bonuses := [cherry00]
  score := 0
  bonusSpawnTime := 0

/-- A plum at the head of a snake, active for 11 seconds. -/
def stateC2w : GameState where
  snake := { direction := RIGHT, positions := [((0 : ℤ), (0 : ℤ))], length := 1, speed := 1/10 }
  applePos := (100, 100)
  bonuses := [plum00]
  score := 0
  bonusSpawnTime := 0

/-- A head on a wall cell with an active cherry elsewhere. -/
def stateC5w : GameState where
  snake := { direction := RIGHT, positions := [((320 : ℤ), (0 : ℤ))], length := 1, speed := 1/10 }
  applePos := (100, 100)
  bonuses := [{ fruit_name := FRUIT_CHERRY, position := (200, 200), active_bonus := true }]
  score := 5
  bonusSpawnTime := 0

/-- A self-collision at `(40, 0)` with no bonuses anywhere near. -/
def stateC7w : GameState where
  snake := { direction := LEFT, positions := [((40 : ℤ), (0 : ℤ)), (20, 0), (40, 0)], length := 5, speed := 1/10 }
  applePos := (100, 100)
  bonuses := []
  score := 42
  bonusSpawnTime := 0

/-- A fresh snake whose head has just landed on the apple at `(0, 40)`. -/
def stateC9w : GameState where
  snake := { direction := RIGHT, positions := [((0 : ℤ), (40 : ℤ))], length := 1, speed := 1/10 }
  applePos := (0, 40)
  bonuses := []
  score := 0
  bonusSpawnTime := 0

/-! ### Basic facts about the grid, the walls and the choice model -/

theorem grid_mem_bounds {p : Pos} (hp : p ∈ GRID_POSITIONS) :
    0 ≤ p.1 ∧ p.1 < 660 ∧ 0 ≤ p.2 ∧ p.2 < 500 := by
  unfold GRID_POSITIONS at hp
  rw [List.mem_flatMap] at hp
  obtain ⟨i, hi, hp⟩ := hp
  simp only [List.mem_map, List.mem_range] at hp
  obtain ⟨j, hj, rfl⟩ := hp
  rw [List.mem_range] at hi
  refine ⟨?_, ?_, ?_, ?_⟩ <;> simp <;> omega

theorem draw_mem {p : Pos} :
    p ∈ DRAW_POSITIONS ↔ p ∈ GRID_POSITIONS ∧ p ∉ WALL_POSITIONS := by
  simp [DRAW_POSITIONS, List.mem_filter]

theorem choiceList_eq_none {α : Type} {l : List α} {pick : ℕ} :
    choiceList l pick = none ↔ l = [] := by
  unfold choiceList
  constructor
  · intro h
    by_contra hne
    have hlen : 0 < l.length := List.length_pos.mpr hne
    have hlt : pick % l.length < l.length := Nat.mod_lt _ hlen
    rw [List.get?_eq_get hlt] at h
    exact Option.noConfusion h
  · rintro rfl
    rfl

theorem choiceList_mem {α : Type} {l : List α} {pick : ℕ} {x : α}
    (h : choiceList l pick = some x) : x ∈ l := by
  unfold choiceList at h
  exact List.get?_mem h

theorem randomize_position_mem {occupied : List Pos} {pick : ℕ} {p : Pos}
    (h : randomize_position occupied pick = some p) :
    p ∈ GRID_POSITIONS ∧ p ∉ occupied := by
  have := choiceList_mem h
  simpa [List.mem_filter] using this

theorem randomize_position_none {occupied : List Pos} {pick : ℕ}
    (h : GRID_POSITIONS.filter (fun p => decide (p ∉ occupied)) = []) :
    randomize_position occupied pick = none := by
  unfold randomize_position
  rw [h]
  rfl

theorem randomize_position_isSome {occupied : List Pos} {pick : ℕ}
    (h : GRID_POSITIONS.filter (fun p => decide (p ∉ occupied)) ≠ []) :
    ∃ p, randomize_position occupied pick = some p ∧
      p ∈ GRID_POSITIONS ∧ p ∉ occupied := by
  rcases ho : randomize_position occupied pick with _ | p
  · exact absurd (choiceList_eq_none.mp ho) h
  · exact ⟨p, rfl, randomize_position_mem ho⟩

theorem DRAW_POSITIONS_ne_nil : DRAW_POSITIONS ≠ [] := by
  intro h
  have : ((0 : ℤ), (0 : ℤ)) ∈ DRAW_POSITIONS := by decide
  rw [h] at this
  exact List.not_mem_nil _ this

theorem chooseDraw_mem (pick : ℕ) : chooseDraw pick ∈ DRAW_POSITIONS := by
  unfold chooseDraw
  have hlen : 0 < DRAW_POSITIONS.length := List.length_pos.mpr DRAW_POSITIONS_ne_nil
  have hlt : pick % DRAW_POSITIONS.length < DRAW_POSITIONS.length := Nat.mod_lt _ hlen
  rw [List.getD_eq_get?, List.get?_eq_get hlt]
  exact List.get_mem _ _ _

theorem chooseDraw_not_wall (pick : ℕ) : chooseDraw pick ∉ WALL_POSITIONS :=
  (draw_mem.mp (chooseDraw_mem pick)).2

theorem chooseDraw_grid (pick : ℕ) : chooseDraw pick ∈ GRID_POSITIONS :=
  (draw_mem.mp (chooseDraw_mem pick)).1

theorem chooseDir_mem (pick : ℕ) : chooseDir pick ∈ [RIGHT, LEFT, UP, DOWN] := by
  unfold chooseDir
  have hlt : pick % 4 < 4 := Nat.mod_lt _ (by norm_num)
  interval_cases h : pick % 4 <;> simp

theorem reset_head (pd pp : ℕ) :
    (Snake.reset pd pp).get_head_position = chooseDraw pp := rfl

theorem reset_head_not_wall (pd pp : ℕ) :
    (Snake.reset pd pp).get_head_position ∉ WALL_POSITIONS :=
  chooseDraw_not_wall pp

/-! ### The bonus-consumption fold of `handle_collision` -/

theorem headD_take {l : List Pos} {n : ℕ} (hn : 1 ≤ n) :
    (l.take n).headD (0, 0) = l.headD (0, 0) := by
  cases l with
  | nil => simp
  | cons a l =>
    cases n with
    | zero => exact absurd hn (by norm_num)
    | succ n => simp

theorem bonusStep_head (now st : ℚ) (acc : Snake × ℤ × List Bonus) (b : Bonus) :
    (bonusStep now st acc b).1.get_head_position = acc.1.get_head_position := by
  simp only [bonusStep, Snake.get_head_position]
  split_ifs <;>
    first
      | rfl
      | exact headD_take (le_trans (by norm_num) (le_max_left 5 _))

theorem foldl_bonusStep_head (now st : ℚ) (l : List Bonus)
    (acc : Snake × ℤ × List Bonus) :
    (l.foldl (bonusStep now st) acc).1.get_head_position =
      acc.1.get_head_position := by
  induction l generalizing acc with
  | nil => rfl
  | cons b l ih => rw [List.foldl_cons, ih, bonusStep_head]

theorem bonusStep_no_match {now st : ℚ} {acc : Snake × ℤ × List Bonus} {b : Bonus}
    (h : ¬(b.active_bonus = true ∧ b.position = acc.1.get_head_position)) :
    bonusStep now st acc b = (acc.1, acc.2.1, acc.2.2 ++ [b]) := by
  simp only [bonusStep]
  rw [if_neg h]

theorem foldl_bonusStep_no_match {now st : ℚ} {l : List Bonus} {s : Snake}
    {sc : ℤ} {done : List Bonus}
    (h : ∀ b ∈ l, ¬(b.active_bonus = true ∧ b.position = s.get_head_position)) :
    l.foldl (bonusStep now st) (s, sc, done) = (s, sc, done ++ l) := by
  induction l generalizing done with
  | nil => simp
  | cons b l ih =>
    rw [List.foldl_cons, bonusStep_no_match (h b (List.mem_cons_self b l))]
    dsimp only
    rw [ih (fun b' hb' => h b' (List.mem_cons_of_mem b hb'))]
    simp

theorem foldl_bonusStep_acc {now st : ℚ} {l : List Bonus}
    {acc : Snake × ℤ × List Bonus}
    (h : ∀ b ∈ l, ¬(b.active_bonus = true ∧ b.position = acc.1.get_head_position)) :
    l.foldl (bonusStep now st) acc = (acc.1, acc.2.1, acc.2.2 ++ l) :=
  foldl_bonusStep_no_match h

/-- A matched bonus is deactivated and appended, whatever its kind. -/
theorem bonusStep_match_done {now st : ℚ} {acc : Snake × ℤ × List Bonus}
    {b : Bonus} (h : b.active_bonus = true ∧ b.position = acc.1.get_head_position) :
    (bonusStep now st acc b).2.2 = acc.2.2 ++ [{ b with active_bonus := false }] := by
  simp only [bonusStep]
  rw [if_pos h]
  split_ifs <;> rfl

/-- Orange consumption step. -/
theorem bonusStep_orange {now st : ℚ} {acc : Snake × ℤ × List Bonus} {b : Bonus}
    (h : b.active_bonus = true ∧ b.position = acc.1.get_head_position)
    (hn : b.fruit_name = FRUIT_ORANGE) :
    bonusStep now st acc b =
      ({ acc.1 with
          length := max 5 (acc.1.length - 1),
          positions := acc.1.positions.take (max 5 (acc.1.length - 1)) },
        acc.2.1 + 30, acc.2.2 ++ [{ b with active_bonus := false }]) := by
  simp only [bonusStep]
  rw [if_pos h, if_pos hn]

/-- Plum consumption step. -/
theorem bonusStep_plum {now st : ℚ} {acc : Snake × ℤ × List Bonus} {b : Bonus}
    (h : b.active_bonus = true ∧ b.position = acc.1.get_head_position)
    (hn : b.fruit_name = FRUIT_PLUM) :
    bonusStep now st acc b =
      ({ acc.1 with speed := max 1 (acc.1.speed - 1/2) },
        acc.2.1 + 30, acc.2.2 ++ [{ b with active_bonus := false }]) := by
  have hno : ¬b.fruit_name = FRUIT_ORANGE := by
    rw [hn]
    decide
  simp only [bonusStep]
  rw [if_pos h, if_neg hno, if_pos hn]

/-- Cherry consumption step: the added score is `150 - 10 * t` with `t` the
whole seconds since the shared spawn clock, with no clamping at zero. -/
theorem bonusStep_cherry {now st : ℚ} {acc : Snake × ℤ × List Bonus} {b : Bonus}
    (h : b.active_bonus = true ∧ b.position = acc.1.get_head_position)
    (hn : b.fruit_name = FRUIT_CHERRY) :
    bonusStep now st acc b =
      ({ acc.1 with length := acc.1.length + 1, speed := acc.1.speed + 5/100 },
        acc.2.1 + (150 - 10 * pySeconds (now - st)),
        acc.2.2 ++ [{ b with active_bonus := false }]) := by
  have hno : ¬b.fruit_name = FRUIT_ORANGE := by
    rw [hn]
    decide
  have hnp : ¬b.fruit_name = FRUIT_PLUM := by
    rw [hn]
    decide
  simp only [bonusStep]
  rw [if_pos h, if_neg hno, if_neg hnp, if_pos hn]

/-- The whole bonus loop when exactly one bonus matches the head and it is a
cherry. -/
theorem foldl_bonusStep_cherry {now st : ℚ} {l1 l2 : List Bonus} {b : Bonus}
    {s : Snake} {sc : ℤ}
    (hm : b.active_bonus = true ∧ b.position = s.get_head_position)
    (hn : b.fruit_name = FRUIT_CHERRY)
    (h1 : ∀ b' ∈ l1, ¬(b'.active_bonus = true ∧ b'.position = s.get_head_position))
    (h2 : ∀ b' ∈ l2, ¬(b'.active_bonus = true ∧ b'.position = s.get_head_position)) :
    (l1 ++ b :: l2).foldl (bonusStep now st) (s, sc, []) =
      ({ s with length := s.length + 1, speed := s.speed + 5/100 },
        sc + (150 - 10 * pySeconds (now - st)),
        l1 ++ ({ b with active_bonus := false } :: l2)) := by
  rw [List.foldl_append, foldl_bonusStep_no_match h1, List.foldl_cons,
    bonusStep_cherry hm hn]
  rw [foldl_bonusStep_acc (fun b' hb' => h2 b' hb')]
  simp

/-- The whole bonus loop when exactly one bonus matches the head and it is a
plum. -/
theorem foldl_bonusStep_plum {now st : ℚ} {l1 l2 : List Bonus} {b : Bonus}
    {s : Snake} {sc : ℤ}
    (hm : b.active_bonus = true ∧ b.position = s.get_head_position)
    (hn : b.fruit_name = FRUIT_PLUM)
    (h1 : ∀ b' ∈ l1, ¬(b'.active_bonus = true ∧ b'.position = s.get_head_position))
    (h2 : ∀ b' ∈ l2, ¬(b'.active_bonus = true ∧ b'.position = s.get_head_position)) :
    (l1 ++ b :: l2).foldl (bonusStep now st) (s, sc, []) =
      ({ s with speed := max 1 (s.speed - 1/2) }, sc + 30,
        l1 ++ ({ b with active_bonus := false } :: l2)) := by
  rw [List.foldl_append, foldl_bonusStep_no_match h1, List.foldl_cons,
    bonusStep_plum hm hn]
  rw [foldl_bonusStep_acc (fun b' hb' => h2 b' hb')]
  simp

/-- The whole bonus loop when exactly one bonus matches the head, of any
kind: the bonus flag is cleared. -/
theorem foldl_bonusStep_clears {now st : ℚ} {l1 l2 : List Bonus} {b : Bonus}
    {s : Snake} {sc : ℤ}
    (hm : b.active_bonus = true ∧ b.position = s.get_head_position)
    (h1 : ∀ b' ∈ l1, ¬(b'.active_bonus = true ∧ b'.position = s.get_head_position))
    (h2 : ∀ b' ∈ l2, ¬(b'.active_bonus = true ∧ b'.position = s.get_head_position)) :
    ((l1 ++ b :: l2).foldl (bonusStep now st) (s, sc, [])).2.2 =
      l1 ++ ({ b with active_bonus := false } :: l2) := by
  rw [List.foldl_append, foldl_bonusStep_no_match h1, List.foldl_cons,
    List.nil_append]
  have hhead := bonusStep_head now st (s, sc, l1) b
  rw [foldl_bonusStep_acc (fun b' hb' => by rw [hhead]; exact h2 b' hb')]
  dsimp only
  rw [bonusStep_match_done hm]
  simp

theorem bonusStep_done_mono {now st : ℚ} {acc : Snake × ℤ × List Bonus}
    {b x : Bonus} (hx : x ∈ acc.2.2) : x ∈ (bonusStep now st acc b).2.2 := by
  simp only [bonusStep]
  split_ifs <;> simp [hx]

theorem foldl_bonusStep_done_mono {now st : ℚ} {l : List Bonus}
    {acc : Snake × ℤ × List Bonus} {x : Bonus} (hx : x ∈ acc.2.2) :
    x ∈ (l.foldl (bonusStep now st) acc).2.2 := by
  induction l generalizing acc with
  | nil => exact hx
  | cons b l ih => exact ih (bonusStep_done_mono hx)

theorem foldl_bonusStep_pass {now st : ℚ} {l : List Bonus}
    {acc : Snake × ℤ × List Bonus} {b : Bonus} (hb : b ∈ l)
    (hpos : b.position ≠ acc.1.get_head_position) :
    b ∈ (l.foldl (bonusStep now st) acc).2.2 := by
  induction l generalizing acc with
  | nil => cases hb
  | cons c l ih =>
    rw [List.foldl_cons]
    rcases List.mem_cons.mp hb with rfl | hb'
    · refine foldl_bonusStep_done_mono ?_
      rw [bonusStep_no_match (fun hm => hpos hm.2)]
      simp
    · exact ih hb' (by rw [bonusStep_head]; exact hpos)

/-! ### Branch lemmas for `handle_collision` -/

theorem handle_collision_quiet {g : GameState} {now : ℚ} {a p1 q1 p2 q2 : ℕ}
    (hA : g.snake.get_head_position ≠ g.applePos)
    (hS : g.snake.get_head_position ∉ g.snake.positions.tail)
    (hW : g.snake.get_head_position ∉ WALL_POSITIONS) :
    handle_collision g now a p1 q1 p2 q2 =
      some ({ g with
        snake := (g.bonuses.foldl (bonusStep now g.bonusSpawnTime)
          (g.snake, g.score, [])).1,
        score := (g.bonuses.foldl (bonusStep now g.bonusSpawnTime)
          (g.snake, g.score, [])).2.1,
        bonuses := (g.bonuses.foldl (bonusStep now g.bonusSpawnTime)
          (g.snake, g.score, [])).2.2 }, []) := by
  have hA' : g.snake.positions.headD (0, 0) ≠ g.applePos := hA
  have hS' : g.snake.positions.headD (0, 0) ∉ g.snake.positions.tail := hS
  have hW' : g.snake.positions.headD (0, 0) ∉ WALL_POSITIONS := hW
  simp only [handle_collision, Snake.get_head_position, if_neg hA', if_neg hS',
    if_neg hW']

theorem handle_collision_self {g : GameState} {now : ℚ} {a p1 q1 p2 q2 : ℕ}
    (hA : g.snake.get_head_position ≠ g.applePos)
    (hS : g.snake.get_head_position ∈ g.snake.positions.tail) :
    handle_collision g now a p1 q1 p2 q2 =
      some ({ g with
        snake := (g.bonuses.foldl (bonusStep now g.bonusSpawnTime)
          (Snake.reset p1 q1, 0, [])).1,
        score := (g.bonuses.foldl (bonusStep now g.bonusSpawnTime)
          (Snake.reset p1 q1, 0, [])).2.1,
        bonuses := (g.bonuses.foldl (bonusStep now g.bonusSpawnTime)
          (Snake.reset p1 q1, 0, [])).2.2 }, [g.score]) := by
  have hA' : g.snake.positions.headD (0, 0) ≠ g.applePos := hA
  have hS' : g.snake.positions.headD (0, 0) ∈ g.snake.positions.tail := hS
  have hR : chooseDraw q1 ∉ WALL_POSITIONS := chooseDraw_not_wall q1
  simp only [handle_collision, Snake.get_head_position, if_neg hA', if_pos hS',
    Snake.reset, List.headD_cons, if_neg hR, List.nil_append]

theorem handle_collision_wall {g : GameState} {now : ℚ} {a p1 q1 p2 q2 : ℕ}
    (hA : g.snake.get_head_position ≠ g.applePos)
    (hS : g.snake.get_head_position ∉ g.snake.positions.tail)
    (hW : g.snake.get_head_position ∈ WALL_POSITIONS) :
    handle_collision g now a p1 q1 p2 q2 =
      some ({ g with
        snake := (g.bonuses.foldl (bonusStep now g.bonusSpawnTime)
          (Snake.reset p2 q2, 0, [])).1,
        score := (g.bonuses.foldl (bonusStep now g.bonusSpawnTime)
          (Snake.reset p2 q2, 0, [])).2.1,
        bonuses := (g.bonuses.foldl (bonusStep now g.bonusSpawnTime)
          (Snake.reset p2 q2, 0, [])).2.2 }, [g.score]) := by
  have hA' : g.snake.positions.headD (0, 0) ≠ g.applePos := hA
  have hS' : g.snake.positions.headD (0, 0) ∉ g.snake.positions.tail := hS
  have hW' : g.snake.positions.headD (0, 0) ∈ WALL_POSITIONS := hW
  simp only [handle_collision, Snake.get_head_position, if_neg hA', if_neg hS',
    if_pos hW', List.nil_append]

theorem handle_collision_apple {g : GameState} {now : ℚ} {a p1 q1 p2 q2 : ℕ}
    (hA : g.snake.get_head_position = g.applePos)
    (hS : g.snake.get_head_position ∉ g.snake.positions.tail)
    (hW : g.snake.get_head_position ∉ WALL_POSITIONS)
    (hfree : GRID_POSITIONS.filter
      (fun p => decide (p ∉ g.snake.positions ++ WALL_POSITIONS)) ≠ []) :
    ∃ ap, randomize_position (g.snake.positions ++ WALL_POSITIONS) a = some ap ∧
      ap ∈ GRID_POSITIONS ∧ ap ∉ g.snake.positions ++ WALL_POSITIONS ∧
      handle_collision g now a p1 q1 p2 q2 =
        some ({ g with
          snake := (g.bonuses.foldl (bonusStep now g.bonusSpawnTime)
            ({ g.snake with
               length := g.snake.length + 1, speed := g.snake.speed + 5/100 },
              g.score + 10, [])).1,
          applePos := ap,
          score := (g.bonuses.foldl (bonusStep now g.bonusSpawnTime)
            ({ g.snake with
               length := g.snake.length + 1, speed := g.snake.speed + 5/100 },
              g.score + 10, [])).2.1,
          bonuses := (g.bonuses.foldl (bonusStep now g.bonusSpawnTime)
            ({ g.snake with
               length := g.snake.length + 1, speed := g.snake.speed + 5/100 },
              g.score + 10, [])).2.2 },
          []) := by
  obtain ⟨ap, hap, hgrid, hocc⟩ :=
    @randomize_position_isSome (g.snake.positions ++ WALL_POSITIONS) a hfree
  refine ⟨ap, hap, hgrid, hocc, ?_⟩
  have hA' : g.snake.positions.headD (0, 0) = g.applePos := hA
  have hS' : g.snake.positions.headD (0, 0) ∉ g.snake.positions.tail := hS
  have hW' : g.snake.positions.headD (0, 0) ∉ WALL_POSITIONS := hW
  simp only [handle_collision, Snake.get_head_position, if_pos hA', hap,
    if_neg hS', if_neg hW']

/-! ### Preservation of the actor invariant -/

theorem snakeInv_move {s : Snake} (h : SnakeInv s) : SnakeInv s.move := by
  obtain ⟨hlen, hmem⟩ := h
  unfold SnakeInv Snake.move
  dsimp only
  constructor
  · split_ifs with hc
    · simp only [List.length_dropLast, List.length_cons]
      omega
    · simp only [List.length_cons] at hc ⊢
      omega
  · intro p hp
    have hp' : p ∈ ((s.get_head_position.1 + s.direction.1 * GRID_SIZE).emod AREA_SIZE.1,
        (s.get_head_position.2 + s.direction.2 * GRID_SIZE).emod AREA_SIZE.2) ::
        s.positions := by
      split_ifs at hp with hc
      · exact List.dropLast_subset _ hp
      · exact hp
    rcases List.mem_cons.mp hp' with rfl | hmem'
    · refine ⟨Int.emod_nonneg _ (by norm_num [AREA_SIZE]), ?_,
        Int.emod_nonneg _ (by norm_num [AREA_SIZE]), ?_⟩
      · exact Int.emod_lt_of_pos _ (by norm_num [AREA_SIZE])
      · exact Int.emod_lt_of_pos _ (by norm_num [AREA_SIZE])
    · exact hmem p hmem'

theorem snakeInv_reset (pd pp : ℕ) : SnakeInv (Snake.reset pd pp) := by
  constructor
  · simp [Snake.reset]
  · intro p hp
    simp only [Snake.reset, List.mem_singleton] at hp
    subst hp
    exact grid_mem_bounds (chooseDraw_grid pp)

theorem bonusStep_inv {now st : ℚ} {acc : Snake × ℤ × List Bonus} {b : Bonus}
    (h : SnakeInv acc.1) : SnakeInv (bonusStep now st acc b).1 := by
  obtain ⟨hlen, hmem⟩ := h
  unfold SnakeInv
  simp only [bonusStep]
  split_ifs
  · constructor
    · dsimp only
      rw [List.length_take]
      exact min_le_left _ _
    · intro p hp
      dsimp only at hp
      exact hmem p (List.take_subset _ _ hp)
  · exact ⟨hlen, hmem⟩
  · constructor
    · dsimp only
      exact le_trans hlen (Nat.le_succ _)
    · exact fun p hp => hmem p hp
  · exact ⟨hlen, hmem⟩
  · exact ⟨hlen, hmem⟩

theorem foldl_bonusStep_inv {now st : ℚ} {l : List Bonus}
    {acc : Snake × ℤ × List Bonus} (h : SnakeInv acc.1) :
    SnakeInv (l.foldl (bonusStep now st) acc).1 := by
  induction l generalizing acc with
  | nil => exact h
  | cons b l ih => exact ih (bonusStep_inv h)

theorem handle_collision_inv {g : GameState} {now : ℚ} {a p1 q1 p2 q2 : ℕ}
    {g' : GameState} {ev : List ℤ} (h : SnakeInv g.snake)
    (he : handle_collision g now a p1 q1 p2 q2 = some (g', ev)) :
    SnakeInv g'.snake := by
  simp only [handle_collision] at he
  split at he
  · exact Option.noConfusion he
  next s1 apple1 score1 heq =>
    have hs1 : SnakeInv s1 := by
      split at heq
      · split at heq
        · exact Option.noConfusion heq
        · have h2 := Option.some.inj heq
          have h3 : ({ g.snake with length := g.snake.length + 1, speed := g.snake.speed + 5/100 } : Snake) = s1 :=
            congrArg Prod.fst h2
          rw [← h3]
          exact ⟨le_trans h.1 (Nat.le_succ _), h.2⟩
      · have h2 := Option.some.inj heq
        have h3 : g.snake = s1 := congrArg Prod.fst h2
        rw [← h3]
        exact h
    have h2 := Option.some.inj he
    have h3 := congrArg Prod.fst h2
    dsimp only at h3
    rw [← h3]
    dsimp only
    apply foldl_bonusStep_inv
    split_ifs <;> first | exact snakeInv_reset _ _ | exact hs1

/-! ### Bonus activation: cooldown and counting machinery -/

theorem handle_collision_spawnTime {g : GameState} {now : ℚ} {a p1 q1 p2 q2 : ℕ}
    {g' : GameState} {ev : List ℤ}
    (he : handle_collision g now a p1 q1 p2 q2 = some (g', ev)) :
    g'.bonusSpawnTime = g.bonusSpawnTime := by
  simp only [handle_collision] at he
  split at he
  · exact Option.noConfusion he
  next s1 apple1 score1 heq =>
    have h2 := Option.some.inj he
    have h3 := congrArg Prod.fst h2
    dsimp only at h3
    rw [← h3]

theorem bonusStep_count {now st : ℚ} {acc : Snake × ℤ × List Bonus} {b : Bonus} :
    ((bonusStep now st acc b).2.2).countP (fun x => x.active_bonus) ≤
      acc.2.2.countP (fun x => x.active_bonus) +
        [b].countP (fun x => x.active_bonus) := by
  simp only [bonusStep]
  split_ifs <;> simp [List.countP_append, List.countP_cons]

theorem foldl_bonusStep_count {now st : ℚ} {l : List Bonus}
    {acc : Snake × ℤ × List Bonus} :
    ((l.foldl (bonusStep now st) acc).2.2).countP (fun x => x.active_bonus) ≤
      acc.2.2.countP (fun x => x.active_bonus) +
        l.countP (fun x => x.active_bonus) := by
  induction l generalizing acc with
  | nil => simp
  | cons b l ih =>
    rw [List.foldl_cons]
    refine le_trans ih ?_
    have h1 := @bonusStep_count now st acc b
    simp only [List.countP_cons, List.countP_nil, List.countP_singleton] at h1 ⊢
    omega

theorem handle_collision_count {g : GameState} {now : ℚ} {a p1 q1 p2 q2 : ℕ}
    {g' : GameState} {ev : List ℤ}
    (he : handle_collision g now a p1 q1 p2 q2 = some (g', ev)) :
    activeCount g' ≤ activeCount g := by
  simp only [handle_collision] at he
  split at he
  · exact Option.noConfusion he
  next s1 apple1 score1 heq =>
    have h2 := Option.some.inj he
    have h3 := congrArg Prod.fst h2
    dsimp only at h3
    rw [← h3]
    unfold activeCount
    dsimp only
    refine le_trans foldl_bonusStep_count ?_
    simp

theorem pyShuffle_perm {α : Type} (l : List α) (pick : ℕ) :
    (pyShuffle l pick).Perm l := by
  unfold pyShuffle
  rcases h : l.permutations.get? (pick % l.permutations.length) with _ | x
  · rw [List.getD_eq_get?, h]
    exact List.Perm.refl l
  · rw [List.getD_eq_get?, h]
    exact List.mem_permutations.mp (List.get?_mem h)

theorem activateFirst_count {brand : ℕ → ℚ × ℚ × ℚ} {g : GameState}
    {occ : List Pos} {pick : ℕ} {l : List Bonus} {i : ℕ} {l' : List Bonus}
    {a : Bool} (h : activateFirst brand g occ pick l i = some (l', a)) :
    l'.countP (fun b => b.active_bonus) ≤ l.countP (fun b => b.active_bonus) + 1 ∧
      (a = false → l' = l) ∧
      l.countP (fun b => b.active_bonus) ≤ l'.countP (fun b => b.active_bonus) := by
  induction l generalizing i l' a with
  | nil =>
    simp only [activateFirst] at h
    have h2 := Option.some.inj h
    have hl : ([] : List Bonus) = l' := congrArg Prod.fst h2
    have ha : false = a := congrArg Prod.snd h2
    rw [← hl]
    exact ⟨by simp, fun _ => rfl, le_refl _⟩
  | cons b rest ih =>
    simp only [activateFirst] at h
    split at h
    next hcond =>
      split at h
      · exact Option.noConfusion h
      next p hp =>
        have h2 := Option.some.inj h
        have hl := congrArg Prod.fst h2
        have ha := congrArg Prod.snd h2
        dsimp only at hl ha
        rw [← hl]
        have hb : b.active_bonus = false := by
          rw [Bool.and_eq_true] at hcond
          obtain ⟨-, hnb⟩ := hcond
          simpa using hnb
        refine ⟨?_, ?_, ?_⟩
        · simp [List.countP_cons, hb]
        · intro hfa
          rw [← ha] at hfa
          exact Bool.noConfusion hfa
        · simp [List.countP_cons, hb]
    next hcond =>
      split at h
      · exact Option.noConfusion h
      next l2 a2 heq =>
        have h2 := Option.some.inj h
        have hl := congrArg Prod.fst h2
        have ha := congrArg Prod.snd h2
        dsimp only at hl ha
        rw [← hl]
        obtain ⟨hc2, hf2, hlow⟩ := ih heq
        refine ⟨?_, ?_, ?_⟩
        · simp only [List.countP_cons]
          omega
        · intro hfa
          rw [← ha] at hfa
          rw [hf2 hfa]
        · simp only [List.countP_cons]
          omega

theorem bonus_spawn_spec {g : GameState} {now : ℚ} {sp pp : ℕ}
    {brand : ℕ → ℚ × ℚ × ℚ} {g' : GameState} {a : Bool}
    (h : bonus_spawn g now sp pp brand = some (g', a)) :
    (a = true → g.bonusSpawnTime + 15 ≤ now ∧ g'.bonusSpawnTime = now) ∧
      (a = false → g'.bonusSpawnTime = g.bonusSpawnTime) ∧
      activeCount g' ≤ activeCount g + 1 ∧ g'.snake = g.snake ∧
      activeCount g ≤ activeCount g' := by
  simp only [bonus_spawn] at h
  split at h
  next hguard =>
    have h2 := Option.some.inj h
    have hg := congrArg Prod.fst h2
    have ha := congrArg Prod.snd h2
    dsimp only at hg ha
    rw [← hg, ← ha]
    exact ⟨fun hfa => Bool.noConfusion hfa, fun _ => rfl, by omega, rfl, le_refl _⟩
  next hguard =>
    split at h
    · exact Option.noConfusion h
    next l a2 heq =>
      have h2 := Option.some.inj h
      have hg := congrArg Prod.fst h2
      have ha := congrArg Prod.snd h2
      dsimp only at hg ha
      rw [← hg, ← ha]
      obtain ⟨hcount, -, hlow⟩ := activateFirst_count heq
      have hperm := List.Perm.countP_eq (fun b => b.active_bonus)
        (pyShuffle_perm g.bonuses sp)
      have hle : g.bonusSpawnTime + 15 ≤ now := by
        rw [not_lt] at hguard
        linarith
      refine ⟨fun hta => ⟨hle, ?_⟩, fun hfa => ?_, ?_, rfl, ?_⟩
      · rw [hta]
        simp
      · rw [hfa]
        simp
      · unfold activeCount
        dsimp only
        omega
      · unfold activeCount
        dsimp only
        omega

theorem tick_spec {g : GameState} {t : TickIn} {g' : GameState}
    {ev : List ℤ} {a : Bool} (h : tick g t = some (g', ev, a)) :
    (a = true → g.bonusSpawnTime + 15 ≤ t.now ∧ g'.bonusSpawnTime = t.now) ∧
      (a = false → g'.bonusSpawnTime = g.bonusSpawnTime) ∧
      activeCount g' ≤ activeCount g + 1 := by
  simp only [tick] at h
  split at h
  · exact Option.noConfusion h
  next g1 a1 heq =>
    split at h
    · exact Option.noConfusion h
    next g3 ev3 heq2 =>
      have h2 := Option.some.inj h
      have hg := congrArg Prod.fst h2
      have he2 := congrArg (fun x => x.2.2) h2
      dsimp only at hg he2
      rw [← hg, ← he2]
      obtain ⟨hst, hsf, hcnt, -, -⟩ := bonus_spawn_spec heq
      have hpres := handle_collision_spawnTime heq2
      have hcnt2 := handle_collision_count heq2
      dsimp only [activeCount] at hst hsf hpres hcnt hcnt2 ⊢
      refine ⟨fun hta => ?_, fun hfa => ?_, by omega⟩
      · obtain ⟨hle, hnow⟩ := hst hta
        exact ⟨hle, by rw [hpres, hnow]⟩
      · rw [hpres, hsf hfa]

theorem spaced_pairwise {st : ℚ} {l : List ℚ} (h : spaced st l) :
    l.Pairwise (fun a b => a + 15 ≤ b) ∧ ∀ x ∈ l, st + 15 ≤ x := by
  induction l generalizing st with
  | nil => exact ⟨List.Pairwise.nil, by simp⟩
  | cons a l ih =>
    obtain ⟨h1, h2⟩ := h
    obtain ⟨hp, hall⟩ := ih h2
    refine ⟨List.Pairwise.cons (fun x hx => ?_) hp, ?_⟩
    · have := hall x hx
      linarith
    · intro x hx
      rcases List.mem_cons.mp hx with rfl | hx'
      · exact h1
      · have := hall x hx'
        linarith

theorem run_spaced {g : GameState} {ts : List TickIn} {g' : GameState}
    {acts : List ℚ} (h : run g ts = some (g', acts)) :
    spaced g.bonusSpawnTime acts := by
  induction ts generalizing g g' acts with
  | nil =>
    simp only [run] at h
    have h2 := Option.some.inj h
    have hl := congrArg Prod.snd h2
    dsimp only at hl
    rw [← hl]
    trivial
  | cons t ts ih =>
    simp only [run] at h
    split at h
    · exact Option.noConfusion h
    next g1 ev a heq =>
      split at h
      · exact Option.noConfusion h
      next g2 acts2 heq2 =>
        have h2 := Option.some.inj h
        have hl := congrArg Prod.snd h2
        dsimp only at hl
        rw [← hl]
        obtain ⟨hst, hsf, -⟩ := tick_spec heq
        have hrest := ih heq2
        cases a with
        | false =>
          rw [hsf rfl] at hrest
          simpa using hrest
        | true =>
          obtain ⟨hle, hnow⟩ := hst rfl
          rw [hnow] at hrest
          exact ⟨hle, hrest⟩

/-! ### Head-of-move characterization -/

theorem move_head (s : Snake) (hne : s.positions ≠ []) :
    s.move.get_head_position =
      ((s.get_head_position.1 + s.direction.1 * GRID_SIZE).emod AREA_SIZE.1,
        (s.get_head_position.2 + s.direction.2 * GRID_SIZE).emod AREA_SIZE.2) := by
  obtain ⟨a, l, hps⟩ := List.exists_cons_of_ne_nil hne
  unfold Snake.move Snake.get_head_position
  dsimp only
  rw [hps]
  split_ifs <;> rfl

/-! ### The claims -/

/-- C10: a move applies the heading's unit step times the cell size and
reduces each axis modulo the pixel bounds, so moving RIGHT from the
rightmost column (x = 640 with width 660) yields column 0 at the same row,
and symmetrically for the other three edges. -/
theorem C10_wrap_law (s : Snake) (hx hy : ℤ) (hne : s.positions ≠ [])
    (hh : s.get_head_position = (hx, hy)) (h0x : 0 ≤ hx) (hxlt : hx < 660)
    (h0y : 0 ≤ hy) (hylt : hy < 500) :
    s.move.get_head_position =
      ((hx + s.direction.1 * GRID_SIZE).emod AREA_SIZE.1,
        (hy + s.direction.2 * GRID_SIZE).emod AREA_SIZE.2) ∧
      (s.direction = RIGHT → hx = 640 → s.move.get_head_position = (0, hy)) ∧
      (s.direction = LEFT → hx = 0 → s.move.get_head_position = (640, hy)) ∧
      (s.direction = DOWN → hy = 480 → s.move.get_head_position = (hx, 0)) ∧
      (s.direction = UP → hy = 0 → s.move.get_head_position = (hx, 480)) := by
  have hm := move_head s hne
  rw [hh] at hm
  dsimp only at hm
  refine ⟨hm, ?_, ?_, ?_, ?_⟩
  · intro hd he
    rw [hm, hd, he, Prod.mk.injEq]
    constructor
    · decide
    · simp only [RIGHT, GRID_SIZE, AREA_SIZE]
      norm_num
      exact Int.emod_eq_of_lt h0y hylt
  · intro hd he
    rw [hm, hd, he, Prod.mk.injEq]
    constructor
    · decide
    · simp only [LEFT, GRID_SIZE, AREA_SIZE]
      norm_num
      exact Int.emod_eq_of_lt h0y hylt
  · intro hd he
    rw [hm, hd, he, Prod.mk.injEq]
    constructor
    · simp only [DOWN, GRID_SIZE, AREA_SIZE]
      norm_num
      exact Int.emod_eq_of_lt h0x hxlt
    · decide
  · intro hd he
    rw [hm, hd, he, Prod.mk.injEq]
    constructor
    · simp only [UP, GRID_SIZE, AREA_SIZE]
      norm_num
      exact Int.emod_eq_of_lt h0x hxlt
    · decide

/-- C10 witness: the spec scenario — width 660, cell 20, head `(640, 240)`
moving RIGHT gives next head `(0, 240)`. -/
theorem C10_witness :
    (Snake.mk RIGHT [((640 : ℤ), (240 : ℤ))] 1 (1/10)).move.get_head_position
      = (0, 240) :=
  (C10_wrap_law (Snake.mk RIGHT [((640 : ℤ), (240 : ℤ))] 1 (1/10)) 640 240
    (by decide) rfl (by decide) (by decide) (by decide) (by decide)).2.1 rfl rfl

/-- C8: `len(positions) ≤ length` and in-bounds positions are preserved by
every operation of a tick — the move, the terminal reset, and the whole of
`handle_collision` (apple consumption, terminal resets, bonus consumption). -/
theorem C8_actor_invariant :
    (∀ s : Snake, SnakeInv s → SnakeInv s.move) ∧
      (∀ pd pp : ℕ, SnakeInv (Snake.reset pd pp)) ∧
      (∀ (g : GameState) (now : ℚ) (a p1 q1 p2 q2 : ℕ) (g' : GameState)
        (ev : List ℤ), SnakeInv g.snake →
        handle_collision g now a p1 q1 p2 q2 = some (g', ev) →
        SnakeInv g'.snake) :=
  ⟨fun _ h => snakeInv_move h, snakeInv_reset,
    fun _ _ _ _ _ _ _ _ _ h he => handle_collision_inv h he⟩

/-- C8 witness: the invariant holds after a concrete move, a concrete reset
and a concrete `handle_collision` call. -/
theorem C8_witness :
    SnakeInv (Snake.mk RIGHT [((0 : ℤ), (20 : ℤ))] 1 (1/10)).move ∧
      SnakeInv (Snake.reset 0 0) ∧ SnakeInv stateC8.snake :=
  ⟨C8_actor_invariant.1 _ (by decide), C8_actor_invariant.2.1 0 0,
    C8_actor_invariant.2.2 stateC8 0 0 0 0 0 0 stateC8 [] (by decide) rfl⟩

/-- C4 counterexample: with every grid cell occupied the relocation does
not fall back to any position — it fails (`random.choice` of an empty
tuple raises `IndexError`, modelled as `none`). -/
theorem C4_counterexample :
    randomize_position GRID_POSITIONS 0 = none ∧
      GRID_POSITIONS.filter (fun p => decide (p ∉ GRID_POSITIONS)) = [] := by
  have hnil : GRID_POSITIONS.filter (fun p => decide (p ∉ GRID_POSITIONS)) = [] :=
    List.filter_eq_nil.mpr (fun a ha => by simpa using ha)
  exact ⟨randomize_position_none hnil, hnil⟩

/-- C4 (amended): when the set of free cells is empty, `randomize_position`
raises (returns `none`) for every pick; there is no fallback position. -/
theorem C4_empty_free_raises (occupied : List Pos) (pick : ℕ)
    (h : GRID_POSITIONS.filter (fun p => decide (p ∉ occupied)) = []) :
    randomize_position occupied pick = none :=
  randomize_position_none h

/-- C4 witness: instantiated at the fully occupied grid. -/
theorem C4_witness :
    GRID_POSITIONS.filter (fun p => decide (p ∉ GRID_POSITIONS)) = [] ∧
      randomize_position GRID_POSITIONS 5 = none := by
  have hnil : GRID_POSITIONS.filter (fun p => decide (p ∉ GRID_POSITIONS)) = [] :=
    List.filter_eq_nil.mpr (fun a ha => by simpa using ha)
  exact ⟨hnil, C4_empty_free_raises GRID_POSITIONS 5 hnil⟩

/-- Evaluation of one concrete quiet tick. -/
theorem tickC6_eval : tick stateC6 tickC6 =
    some ({ stateC6 with snake := stateC6.snake.move }, [], false) := by
  have hbs : bonus_spawn { stateC6 with snake := handle_keys stateC6.snake tickC6.keys }
      tickC6.now tickC6.shufflePick tickC6.bonusPosPick tickC6.brand =
      some ({ stateC6 with snake := handle_keys stateC6.snake tickC6.keys }, false) := by
    simp only [bonus_spawn]
    rw [if_pos (by norm_num [tickC6, stateC6])]
  simp only [tick]
  rw [hbs]
  dsimp only
  rw [handle_collision_quiet (by decide) (by decide) (by decide)]
  simp [handle_keys, stateC6, tickC6]

/-- C6: over any run, the clock readings of the `Idle→Active` transitions
are pairwise at least 15 seconds apart — the spawn clock is shared by all
kinds, every activation resets it, and `bonus_spawn` requires 15 elapsed
seconds on it — and one tick activates at most one kind (the active count
grows by at most one). -/
theorem C6_bonus_cooldown :
    (∀ (g : GameState) (ts : List TickIn) (g' : GameState) (acts : List ℚ),
      run g ts = some (g', acts) →
      acts.Pairwise (fun x y => x + 15 ≤ y)) ∧
      (∀ (g : GameState) (t : TickIn) (g' : GameState) (ev : List ℤ) (a : Bool),
        tick g t = some (g', ev, a) → activeCount g' ≤ activeCount g + 1) :=
  ⟨fun _ _ _ _ h => (spaced_pairwise (run_spaced h)).1,
    fun _ _ _ _ _ h => (tick_spec h).2.2⟩

/-- C6 witness: instantiated on a concrete run and a concrete tick. -/
theorem C6_witness :
    ([] : List ℚ).Pairwise (fun x y => x + 15 ≤ y) ∧
      activeCount { stateC6 with snake := stateC6.snake.move } ≤
        activeCount stateC6 + 1 :=
  ⟨C6_bonus_cooldown.1 stateC6 [] stateC6 [] rfl,
    C6_bonus_cooldown.2 stateC6 tickC6
      { stateC6 with snake := stateC6.snake.move } [] false tickC6_eval⟩

/-- C1 (amended): consuming an active cherry at the head — with no other
bonus at the head and no apple or terminal collision this tick — adds
exactly `150 - 10 * t` to the score, where `t` is the whole number of
seconds on the shared spawn clock, with no clamping at zero (so the amount
is negative for `t > 15`), and increments length by 1 and speed by 0.05 in
the same tick. -/
theorem C1_cherry_decay (g : GameState) (now : ℚ) (a p1 q1 p2 q2 : ℕ)
    (l1 l2 : List Bonus) (b : Bonus)
    (hb : g.bonuses = l1 ++ b :: l2)
    (hact : b.active_bonus = true)
    (hname : b.fruit_name = FRUIT_CHERRY)
    (hpos : b.position = g.snake.get_head_position)
    (hA : g.snake.get_head_position ≠ g.applePos)
    (hS : g.snake.get_head_position ∉ g.snake.positions.tail)
    (hW : g.snake.get_head_position ∉ WALL_POSITIONS)
    (hothers : ∀ b' ∈ l1 ++ l2,
      ¬(b'.active_bonus = true ∧ b'.position = g.snake.get_head_position)) :
    handle_collision g now a p1 q1 p2 q2 =
      some ({ g with
          snake := { g.snake with
                       length := g.snake.length + 1,
                       speed := g.snake.speed + 5/100 },
          score := g.score + (150 - 10 * pySeconds (now - g.bonusSpawnTime)),
          bonuses := l1 ++ ({ b with active_bonus := false } :: l2) }, []) := by
  rw [handle_collision_quiet hA hS hW, hb,
    foldl_bonusStep_cherry ⟨hact, hpos⟩ hname
      (fun b' hb' => hothers b' (List.mem_append_left _ hb'))
      (fun b' hb' => hothers b' (List.mem_append_right _ hb'))]

/-- C1 counterexample: a cherry consumed 16 seconds after its spawn adds
`150 - 160 = -10` — a negative amount, contradicting `max(0, 150 - 10t)`. -/
theorem C1_counterexample :
    handle_collision stateC1 16 0 0 0 0 0 =
      some ({ stateC1 with
          snake := { stateC1.snake with
                       length := stateC1.snake.length + 1,
                       speed := stateC1.snake.speed + 5/100 },
          score := -10,
          bonuses := [{ cherry00 with active_bonus := false }] },
        []) ∧ (-10 : ℤ) < 0 := by
  refine ⟨?_, by norm_num⟩
  rw [handle_collision_quiet (by decide) (by decide) (by decide)]
  rw [show stateC1.bonuses = [] ++ cherry00 :: [] from rfl]
  rw [foldl_bonusStep_cherry ⟨rfl, rfl⟩ rfl (by simp) (by simp)]
  have hp : pySeconds ((16 : ℚ) - stateC1.bonusSpawnTime) = 16 := by
    norm_num [pySeconds, stateC1]
  rw [hp]
  norm_num [stateC1]

/-- C1 witness: the cherry consumed 3 seconds after its spawn — score
increases by `150 - 30 = 120`, length by 1, speed by 0.05. -/
theorem C1_witness :
    handle_collision stateC1w 3 0 0 0 0 0 =
      some ({ stateC1w with
          snake := { stateC1w.snake with
                       length := stateC1w.snake.length + 1,
                       speed := stateC1w.snake.speed + 5/100 },
          score := stateC1w.score +
            (150 - 10 * pySeconds (3 - stateC1w.bonusSpawnTime)),
          bonuses := [] ++ ({ cherry00 with active_bonus := false } :: []) },
        []) ∧ pySeconds (3 - stateC1w.bonusSpawnTime) = 3 :=
  ⟨C1_cherry_decay stateC1w 3 0 0 0 0 0 [] [] cherry00 rfl rfl rfl rfl
    (by decide) (by decide) (by decide) (by simp),
    by norm_num [pySeconds, stateC1w]⟩

/-- C2 (amended): an Active bonus older than 10 seconds is no longer
rendered (the draw gate tests `now < spawn_time + 10`), but it remains
collidable: the collision loop has no time check, so the head landing on
it still consumes it — its flag is cleared and its effect applied. -/
theorem C2_expiry_not_enforced (g : GameState) (now : ℚ) (a p1 q1 p2 q2 : ℕ)
    (l1 l2 : List Bonus) (b : Bonus)
    (hb : g.bonuses = l1 ++ b :: l2)
    (hact : b.active_bonus = true)
    (hpos : b.position = g.snake.get_head_position)
    (hA : g.snake.get_head_position ≠ g.applePos)
    (hS : g.snake.get_head_position ∉ g.snake.positions.tail)
    (hW : g.snake.get_head_position ∉ WALL_POSITIONS)
    (hothers : ∀ b' ∈ l1 ++ l2,
      ¬(b'.active_bonus = true ∧ b'.position = g.snake.get_head_position))
    (hold : g.bonusSpawnTime + 10 ≤ now) :
    bonusDrawn g now b = false ∧
      (handle_collision g now a p1 q1 p2 q2).map (fun x => x.1.bonuses) =
        some (l1 ++ ({ b with active_bonus := false } :: l2)) := by
  constructor
  · unfold bonusDrawn
    have hnlt : ¬(now < g.bonusSpawnTime + 10) := by linarith
    simp [hnlt]
  · rw [handle_collision_quiet hA hS hW]
    simp only [Option.map_some']
    rw [hb, foldl_bonusStep_clears ⟨hact, hpos⟩
      (fun b' hb' => hothers b' (List.mem_append_left _ hb'))
      (fun b' hb' => hothers b' (List.mem_append_right _ hb'))]

/-- C2 counterexample: 11 seconds after its spawn (past the 10-second
lifetime) the cherry is not rendered, yet the head landing on it still
applies the full effect: `+40` score, `+1` length, `+0.05` speed. -/
theorem C2_counterexample :
    (10 : ℚ) < 11 - stateC2.bonusSpawnTime ∧
      bonusDrawn stateC2 11 cherry00 = false ∧
      handle_collision stateC2 11 0 0 0 0 0 =
        some ({ stateC2 with
            snake := { stateC2.snake with
                         length := stateC2.snake.length + 1,
                         speed := stateC2.snake.speed + 5/100 },
            score := 40,
            bonuses := [{ cherry00 with active_bonus := false }] },
          []) := by
  refine ⟨by norm_num [stateC2], ?_, ?_⟩
  · unfold bonusDrawn
    have h : ¬((11 : ℚ) < stateC2.bonusSpawnTime + 10) := by norm_num [stateC2]
    simp [h]
  · rw [handle_collision_quiet (by decide) (by decide) (by decide)]
    rw [show stateC2.bonuses = [] ++ cherry00 :: [] from rfl]
    rw [foldl_bonusStep_cherry ⟨rfl, rfl⟩ rfl (by simp) (by simp)]
    have hp : pySeconds ((11 : ℚ) - stateC2.bonusSpawnTime) = 11 := by
      norm_num [pySeconds, stateC2]
    rw [hp]
    norm_num [stateC2]

/-- C2 witness: a plum 11 seconds after its spawn, sitting at the head —
not rendered, still consumed. -/
theorem C2_witness :
    bonusDrawn stateC2w 11 plum00 = false ∧
      (handle_collision stateC2w 11 0 0 0 0 0).map (fun x => x.1.bonuses) =
        some ([] ++ ({ plum00 with active_bonus := false } :: [])) :=
  C2_expiry_not_enforced stateC2w 11 0 0 0 0 0 [] [] plum00 rfl rfl rfl
    (by decide) (by decide) (by decide) (by simp) (by norm_num [stateC2w])

/-- Evaluation of `bonus_spawn` on `stateC3` at time 16: the orange
activates while the cherry is still active. -/
theorem bonus_spawnC3_eval :
    bonus_spawn stateC3 16 0 0 (fun _ => (0, 0, 0)) = some (stateC3x, true) := by
  have hcond : condBool stateC3 orange200 (0, 0, 0) = true := by
    simp only [condBool, orange200, if_true, Bool.and_eq_true, decide_eq_true_eq]
    exact ⟨by norm_num [stateC3], by norm_num⟩
  have hrand : randomize_position (stateC3.snake.positions ++ WALL_POSITIONS) 0 =
      some ((0 : ℤ), (20 : ℤ)) := by decide
  simp only [bonus_spawn]
  rw [if_neg (show ¬((16 : ℚ) - stateC3.bonusSpawnTime < 15) by norm_num [stateC3])]
  rw [show pyShuffle stateC3.bonuses 0 = stateC3.bonuses from rfl]
  rw [show stateC3.bonuses = orange200 :: [plum220, cherry100] from rfl]
  simp only [activateFirst]
  rw [hcond]
  simp only [orange200, Bool.not_false, Bool.and_self, if_true]
  rw [hrand]
  simp [stateC3, stateC3x, orange200]

/-- C3 counterexample: from a reachable state with one active bonus (the
cherry, unconsumed since its activation at time 0), `bonus_spawn` at time
16 activates the orange as well — two bonuses are simultaneously active,
because expiry never clears the active flag. -/
theorem C3_counterexample :
    activeCount stateC3 = 1 ∧
      bonus_spawn stateC3 16 0 0 (fun _ => (0, 0, 0)) = some (stateC3x, true) ∧
      activeCount stateC3x = 2 :=
  ⟨by decide, bonus_spawnC3_eval, by decide⟩

/-- C3 (amended): a `bonus_spawn` call never clears an active flag and
activates at most one previously idle kind — the active count can only
stay or grow by one — but nothing ever deactivates an unconsumed bonus, so
repeated calls 15 seconds apart can accumulate several active bonuses. -/
theorem C3_spawn_monotone (g : GameState) (now : ℚ) (sp pp : ℕ)
    (brand : ℕ → ℚ × ℚ × ℚ) (g' : GameState) (aB : Bool)
    (h : bonus_spawn g now sp pp brand = some (g', aB)) :
    activeCount g ≤ activeCount g' ∧ activeCount g' ≤ activeCount g + 1 :=
  ⟨(bonus_spawn_spec h).2.2.2.2, (bonus_spawn_spec h).2.2.1⟩

/-- C3 witness: the bounds instantiated on the concrete activation. -/
theorem C3_witness :
    activeCount stateC3 ≤ activeCount stateC3x ∧
      activeCount stateC3x ≤ activeCount stateC3 + 1 :=
  C3_spawn_monotone stateC3 16 0 0 (fun _ => (0, 0, 0)) stateC3x true
    bonus_spawnC3_eval

/-- C5 (amended): when the moved head hits a wall (and neither the apple
nor the body), the terminal branch resets the snake first, and the bonus
loop then reads the post-reset head: the result folds the bonuses over the
reset snake, whose head differs from the pre-reset head, and any bonus
sitting at the pre-reset head survives untouched. -/
theorem C5_postreset_bonus_check (g : GameState) (now : ℚ) (a p1 q1 p2 q2 : ℕ)
    (hA : g.snake.get_head_position ≠ g.applePos)
    (hS : g.snake.get_head_position ∉ g.snake.positions.tail)
    (hW : g.snake.get_head_position ∈ WALL_POSITIONS) :
    handle_collision g now a p1 q1 p2 q2 =
      some ({ g with
          snake := (g.bonuses.foldl (bonusStep now g.bonusSpawnTime)
            (Snake.reset p2 q2, 0, [])).1,
          score := (g.bonuses.foldl (bonusStep now g.bonusSpawnTime)
            (Snake.reset p2 q2, 0, [])).2.1,
          bonuses := (g.bonuses.foldl (bonusStep now g.bonusSpawnTime)
            (Snake.reset p2 q2, 0, [])).2.2 }, [g.score]) ∧
      (Snake.reset p2 q2).get_head_position ≠ g.snake.get_head_position ∧
      ∀ b ∈ g.bonuses, b.position = g.snake.get_head_position →
        b ∈ (g.bonuses.foldl (bonusStep now g.bonusSpawnTime)
          (Snake.reset p2 q2, 0, [])).2.2 := by
  have hne : (Snake.reset p2 q2).get_head_position ≠ g.snake.get_head_position := by
    intro heq
    rw [← heq] at hW
    exact reset_head_not_wall p2 q2 hW
  refine ⟨handle_collision_wall hA hS hW, hne, fun b hbm hbp => ?_⟩
  refine foldl_bonusStep_pass hbm (fun hc => ?_)
  rw [hbp] at hc
  exact hne hc.symm

/-- C5 counterexample: the head is on a wall, the active plum is at
`(0, 0)`, far from the pre-reset head `(320, 0)` — yet after the reset
lands on `(0, 0)` the plum is consumed in the same tick: score becomes 30
and the plum's flag clears, so the bonus check used the post-reset head,
not the pre-reset one. -/
theorem C5_counterexample :
    stateC5.bonuses = [plum00] ∧
      plum00.position ≠ stateC5.snake.get_head_position ∧
      (handle_collision stateC5 0 0 0 0 0 0).map
        (fun x => (x.1.score, x.1.bonuses, x.2)) =
        some (30, [{ plum00 with active_bonus := false }], [0]) := by
  refine ⟨rfl, by decide, ?_⟩
  decide

/-- C5 witness: a cherry away from both heads passes through the wall-reset
tick untouched. -/
theorem C5_witness :
    (Snake.reset 3 7).get_head_position ≠ stateC5w.snake.get_head_position :=
  (C5_postreset_bonus_check stateC5w 0 0 0 0 3 7 (by decide) (by decide)
    (by decide)).2.1

/-- C7 (amended): a self- or wall-collision emits exactly one score-save
event carrying the pre-reset score, and — provided no active bonus sits on
the reset cell — the tick ends with score 0 and the actor reset to a single
random non-wall grid cell with a random heading; a bonus at the reset cell
would still be consumed afterwards in the same tick. -/
theorem C7_terminal_reset (g : GameState) (now : ℚ) (a p1 q1 p2 q2 : ℕ)
    (hA : g.snake.get_head_position ≠ g.applePos)
    (hT : g.snake.get_head_position ∈ g.snake.positions.tail ∨
      g.snake.get_head_position ∈ WALL_POSITIONS)
    (hnb : ∀ b ∈ g.bonuses, ¬(b.active_bonus = true ∧ b.position =
      chooseDraw (if g.snake.get_head_position ∈ g.snake.positions.tail
        then q1 else q2))) :
    handle_collision g now a p1 q1 p2 q2 =
      some ({ g with
          snake := Snake.reset
            (if g.snake.get_head_position ∈ g.snake.positions.tail then p1 else p2)
            (if g.snake.get_head_position ∈ g.snake.positions.tail then q1 else q2),
          score := 0 }, [g.score]) ∧
      chooseDraw (if g.snake.get_head_position ∈ g.snake.positions.tail
        then q1 else q2) ∈ GRID_POSITIONS ∧
      chooseDraw (if g.snake.get_head_position ∈ g.snake.positions.tail
        then q1 else q2) ∉ WALL_POSITIONS ∧
      chooseDir (if g.snake.get_head_position ∈ g.snake.positions.tail
        then p1 else p2) ∈ [RIGHT, LEFT, UP, DOWN] := by
  by_cases hts : g.snake.get_head_position ∈ g.snake.positions.tail
  · simp only [if_pos hts] at hnb ⊢
    refine ⟨?_, chooseDraw_grid _, chooseDraw_not_wall _, chooseDir_mem _⟩
    rw [handle_collision_self hA hts]
    have hfa : g.bonuses.foldl (bonusStep now g.bonusSpawnTime)
        (Snake.reset p1 q1, (0 : ℤ), ([] : List Bonus)) =
        (Snake.reset p1 q1, (0 : ℤ), ([] : List Bonus) ++ g.bonuses) :=
      foldl_bonusStep_acc (fun b hbm => hnb b hbm)
    rw [hfa]
    simp
  · have hw : g.snake.get_head_position ∈ WALL_POSITIONS := hT.resolve_left hts
    simp only [if_neg hts] at hnb ⊢
    refine ⟨?_, chooseDraw_grid _, chooseDraw_not_wall _, chooseDir_mem _⟩
    rw [handle_collision_wall hA hts hw]
    have hfa : g.bonuses.foldl (bonusStep now g.bonusSpawnTime)
        (Snake.reset p2 q2, (0 : ℤ), ([] : List Bonus)) =
        (Snake.reset p2 q2, (0 : ℤ), ([] : List Bonus) ++ g.bonuses) :=
      foldl_bonusStep_acc (fun b hbm => hnb b hbm)
    rw [hfa]
    simp

/-- C7 counterexample: a self-collision with score 77 fires exactly one
save event carrying 77, but the tick does not end with score 0 and length
1: the reset lands on the active orange at `(0, 0)`, which is consumed in
the same tick, leaving length 5 and score 30. -/
theorem C7_counterexample :
    stateC7.snake.get_head_position ∈ stateC7.snake.positions.tail ∧
      (handle_collision stateC7 0 0 0 0 0 0).map
        (fun x => (x.1.snake.length, x.1.score, x.2)) = some (5, 30, [77]) ∧
      ((5 : ℕ) ≠ 1 ∧ (30 : ℤ) ≠ 0) := by
  refine ⟨by decide, ?_, by decide⟩
  decide

/-- C7 witness: a clean self-collision — one save event with the pre-reset
score 42, then score 0 and a fresh one-cell snake at a random non-wall
cell with a random heading. -/
theorem C7_witness :
    handle_collision stateC7w 0 0 0 0 0 0 =
      some ({ stateC7w with snake := Snake.reset 0 0, score := 0 }, [42]) ∧
      chooseDraw 0 ∈ GRID_POSITIONS ∧ chooseDraw 0 ∉ WALL_POSITIONS ∧
      chooseDir 0 ∈ [RIGHT, LEFT, UP, DOWN] :=
  C7_terminal_reset stateC7w 0 0 0 0 0 0 (by decide) (Or.inl (by decide))
    (by simp [stateC7w])

/-- C9 (amended): when the head equals the apple's position and no terminal
collision or bonus fires at that same head, length grows by exactly 1,
score by 10 and speed by 0.05 in the same tick, and the apple relocates to
a grid cell outside the snake and the walls (when a free cell exists); if
the same head also lies in the body, the terminal reset overrides these in
the same tick. -/
theorem C9_apple_growth (g : GameState) (now : ℚ) (a p1 q1 p2 q2 : ℕ)
    (hA : g.snake.get_head_position = g.applePos)
    (hS : g.snake.get_head_position ∉ g.snake.positions.tail)
    (hW : g.snake.get_head_position ∉ WALL_POSITIONS)
    (hfree : GRID_POSITIONS.filter
      (fun p => decide (p ∉ g.snake.positions ++ WALL_POSITIONS)) ≠ [])
    (hnb : ∀ b ∈ g.bonuses,
      ¬(b.active_bonus = true ∧ b.position = g.snake.get_head_position)) :
    ∃ ap, randomize_position (g.snake.positions ++ WALL_POSITIONS) a = some ap ∧
      handle_collision g now a p1 q1 p2 q2 =
        some ({ g with
            snake := { g.snake with
                         length := g.snake.length + 1,
                         speed := g.snake.speed + 5/100 },
            applePos := ap,
            score := g.score + 10 }, []) ∧
      ap ∈ GRID_POSITIONS ∧ ap ∉ g.snake.positions ∧ ap ∉ WALL_POSITIONS := by
  obtain ⟨ap, hap, hgrid, hocc, heq⟩ := handle_collision_apple hA hS hW hfree
  refine ⟨ap, hap, ?_, hgrid, fun hmem => hocc (List.mem_append_left _ hmem),
    fun hmem => hocc (List.mem_append_right _ hmem)⟩
  rw [heq]
  rw [foldl_bonusStep_acc (fun b hbm => hnb b hbm)]
  simp

/-- C9 counterexample: the head lands on the apple while also lying in the
body: the apple branch adds its effects, but the terminal reset in the
same tick overrides them — the tick ends with length 1 and score 0 instead
of length 6 and score 10 (the save event carries the `+10`). -/
theorem C9_counterexample :
    stateC9.snake.length = 5 ∧
      stateC9.snake.get_head_position = stateC9.applePos ∧
      stateC9.snake.get_head_position ∈ stateC9.snake.positions.tail ∧
      (handle_collision stateC9 0 0 0 0 0 0).map
        (fun x => (x.1.snake.length, x.1.score, x.2)) = some (1, 0, [10]) ∧
      (1 : ℕ) ≠ 5 + 1 := by
  refine ⟨rfl, rfl, by decide, ?_, by decide⟩
  decide

/-- C9 witness: a clean apple consumption — length 2, score 10, speed
+0.05, apple relocated to the free cell `(0, 0)`. -/
theorem C9_witness :
    handle_collision stateC9w 0 0 0 0 0 0 =
      some ({ stateC9w with
          snake := { stateC9w.snake with
                       length := stateC9w.snake.length + 1,
                       speed := stateC9w.snake.speed + 5/100 },
          applePos := ((0 : ℤ), (0 : ℤ)),
          score := stateC9w.score + 10 }, []) ∧
      ((0 : ℤ), (0 : ℤ)) ∉ stateC9w.snake.positions ∧
      ((0 : ℤ), (0 : ℤ)) ∉ WALL_POSITIONS := by
  obtain ⟨ap, hr, heq, hgrid, hpos, hwall⟩ :=
    C9_apple_growth stateC9w 0 0 0 0 0 0 (by decide) (by decide) (by decide)
      (by decide) (by simp [stateC9w])
  have hap : ap = ((0 : ℤ), (0 : ℤ)) := by
    have hc : randomize_position (stateC9w.snake.positions ++ WALL_POSITIONS) 0 =
        some ((0 : ℤ), (0 : ℤ)) := by decide
    rw [hc] at hr
    exact (Option.some.inj hr).symm
  subst hap
  exact ⟨heq, hpos, hwall⟩

end TheSnake
